import Mathlib

/-!
Verification of the ETFTrueHoldings repository: a shallow embedding of its
cache layer (`getCache` / `setCache`), its profile fetcher
(`fetchEtfProfile`, both in `services/alphaVantage.ts`) and its aggregation
engine (the `stats` and `aggregatedData` memos in `App.tsx`), together with
proofs of the spec's testable properties.

Modelling conventions:
* JavaScript numbers are modelled exactly as rationals plus an explicit
  `NaN` value (`JsNum`); arithmetic on `JsNum` propagates `NaN` the way
  IEEE arithmetic does (any operation with a `NaN` operand yields `NaN`).
* `parseFloat` is modelled for plain decimal literals (optional sign,
  digits, optional fractional part, longest-valid-leading-portion
  semantics, leading whitespace skipped); exponents and the literals
  `Infinity`/`NaN` do not occur in the provider data and are not modelled.
* A JavaScript `Map` is modelled as an insertion-ordered association list:
  `set` on an existing key updates in place, otherwise appends.
* `Array.prototype.sort` with the comparator `(a, b) => b.v - a.v` is
  modelled as a stable insertion sort that moves an element past another
  only when its value is strictly smaller (a `NaN` comparator result is
  coerced to `0`, i.e. a tie, by the JavaScript sort).
* `localStorage` is modelled as an association list from keys to stored
  values; a stored value is either a well-formed serialized cache entry or
  a malformed blob on which deserialization (`JSON.parse`) fails.
-/

/-! ## JavaScript numeric model -/

/-- A JavaScript number: either `NaN` or an exact rational value. -/
inductive JsNum where
  | nan : JsNum
  | num (q : ℚ) : JsNum
deriving DecidableEq, Repr

namespace JsNum

/-- Addition; `NaN` propagates. -/
def add : JsNum → JsNum → JsNum
  | nan, _ => nan
  | _, nan => nan
  | num a, num b => num (a + b)

/-- Multiplication; `NaN` propagates.  (JavaScript has `0 * NaN = NaN`.) -/
def mul : JsNum → JsNum → JsNum
  | nan, _ => nan
  | _, nan => nan
  | num a, num b => num (a * b)

/-- Division; `NaN` propagates.  Division by an exact zero yields
`Infinity` in JavaScript, which is outside this model; every division in
the embedded code is guarded by `totalEquity > 0`, so that case is never
exercised by the source and is mapped to `nan` here. -/
def div : JsNum → JsNum → JsNum
  | nan, _ => nan
  | _, nan => nan
  | num a, num b => if b = 0 then nan else num (a / b)

/-- The strict `<` comparison; any comparison with `NaN` is `false`. -/
def lt : JsNum → JsNum → Bool
  | num a, num b => decide (a < b)
  | _, _ => false

/-- The JavaScript idiom `x || 0` applied to a number: falsy numbers
(`NaN`, `0`, `-0`) become `0`, everything else is kept. -/
def orZero : JsNum → ℚ
  | nan => 0
  | num q => q

end JsNum

/-- Truthiness of a JavaScript string-or-null value: `null`/`undefined`
and the empty string are falsy. -/
def jsTruthyStr : Option String → Bool
  | none => false
  | some s => !s.isEmpty

/-- Value of a run of decimal digit characters. -/
def digitsVal (cs : List Char) : ℕ :=
  cs.foldl (fun a c => 10 * a + (c.toNat - 48)) 0

/-- The character-level decomposition of a decimal literal: sign flag,
integer-part digits and fractional-part digits. -/
structure FloatParts where
  neg : Bool
  intDigits : List Char
  fracDigits : List Char
deriving DecidableEq, Repr

/-- Character-level phase of `parseFloat`: skip leading whitespace, read
an optional sign, then the longest run of digits, an optional dot and a
second digit run; trailing garbage is ignored. -/
def floatParts (s : String) : FloatParts :=
  let cs := s.data.dropWhile (fun c => c.isWhitespace)
  let neg : Bool := match cs with
    | '-' :: _ => true
    | _ => false
  let cs := match cs with
    | '-' :: rest => rest
    | '+' :: rest => rest
    | _ => cs
  let intPart := cs.takeWhile (fun c => c.isDigit)
  let rest := cs.dropWhile (fun c => c.isDigit)
  let fracPart := match rest with
    | '.' :: r => r.takeWhile (fun c => c.isDigit)
    | _ => []
  ⟨neg, intPart, fracPart⟩

/-- Model of JavaScript `parseFloat` restricted to decimal literals
(longest-valid-leading-portion semantics).  If no digit is read at all
the result is `NaN`.  Exponents and the words `Infinity`/`NaN` are not
modelled (they do not occur in the provider's weight/ratio strings). -/
def parseFloat (s : String) : JsNum :=
  let p := floatParts s
  if p.intDigits.isEmpty && p.fracDigits.isEmpty then JsNum.nan
  else JsNum.num (((if p.neg then -1 else 1) : ℚ) *
    ((digitsVal p.intDigits : ℚ) +
      (digitsVal p.fracDigits : ℚ) / (10 ^ p.fracDigits.length)))

/-! ## Data model (`types.ts`) -/

/-- One holding row of the provider's `ETF_PROFILE` response
(`AVHolding` in `types.ts`).  The TypeScript type declares `symbol` as a
string, but the runtime value can be `null` (the code guards `!symbol`),
hence `Option String` here. -/
structure AVHolding where
  symbol : Option String
  description : String
  weight : String
  assets : String
deriving DecidableEq, Repr

/-- One sector row of the provider response (`AVSector` in `types.ts`). -/
structure AVSector where
  sector : String
  weight : String
deriving DecidableEq, Repr

/-- The normalized profile record (`EtfProfileData` in `types.ts`).
`sectors` is optional because the fetcher never validates it, and the
aggregation code guards `if (item.data.sectors)`. -/
structure EtfProfileData where
  symbol : String
  name : Option String
  net_assets : String
  portfolio_turnover : String
  net_expense_ratio : String
  dividend_yield : String
  holdings : List AVHolding
  sectors : Option (List AVSector)
deriving DecidableEq, Repr

/-- One portfolio position (`PortfolioItem` in `types.ts`).  `equity`
comes from a numeric form input and is modelled as an exact rational. -/
structure PortfolioItem where
  id : String
  ticker : String
  equity : ℚ
  data : Option EtfProfileData
  isLoading : Bool
  error : Option String
deriving DecidableEq, Repr

/-! ## Insertion-ordered map (JavaScript `Map` / keyed object) -/

/-- Lookup in an insertion-ordered association list (`Map.prototype.get`). -/
def getEntry {V : Type} : List (String × V) → String → Option V
  | [], _ => none
  | (k', v) :: rest, k => if k' = k then some v else getEntry rest k

/-- Update in an insertion-ordered association list (`Map.prototype.set`):
an existing key keeps its position, a new key is appended. -/
def setEntry {V : Type} : List (String × V) → String → V → List (String × V)
  | [], k, v => [(k, v)]
  | (k', v') :: rest, k, v =>
      if k' = k then (k', v) :: rest else (k', v') :: setEntry rest k v

/-! ## CacheStore (`getCache` / `setCache` in `services/alphaVantage.ts`) -/

/-- A value held by the backing key-value store: either a well-formed
serialized `CacheEntry {data, timestamp}` or a blob on which `JSON.parse`
throws. -/
inductive StoredVal where
  | valid (data : EtfProfileData) (timestamp : ℤ) : StoredVal
  | malformed : StoredVal
deriving DecidableEq

/-- The backing key-value store (`localStorage`), keys to stored values. -/
abbrev Store := List (String × StoredVal)

/-- Removal from the backing store (`localStorage.removeItem`). -/
def storeRemove : Store → String → Store
  | [], _ => []
  | (k', v) :: rest, k =>
      if k' = k then storeRemove rest k else (k', v) :: storeRemove rest k

/-- The cache TTL, `CACHE_DURATION = 24 * 60 * 60 * 1000` ms. -/
def CACHE_DURATION : ℤ := 24 * 60 * 60 * 1000

/-- Model of JavaScript `String.prototype.toUpperCase` (tickers are
ASCII). -/
def toUpperStr (s : String) : String :=
  String.mk (s.data.map Char.toUpper)

/-- The storage key for a ticker: the schema-versioned
`"av_etf_v4_" + ticker.toUpperCase()`. -/
def cacheKey (ticker : String) : String :=
  "av_etf_v4_" ++ toUpperStr ticker

/-- Model of `getCache`: look the key up; a missing key is a miss; a
malformed entry is removed and reported as a miss; a well-formed entry is
returned while `now - timestamp < CACHE_DURATION` and removed (expired)
otherwise.  Returns the result together with the possibly-updated store. -/
def getCache (s : Store) (ticker : String) (now : ℤ) :
    Option EtfProfileData × Store :=
  let key := cacheKey ticker
  match getEntry s key with
  | none => (none, s)
  | some StoredVal.malformed => (none, storeRemove s key)
  | some (StoredVal.valid data ts) =>
      if now - ts < CACHE_DURATION then (some data, s)
      else (none, storeRemove s key)

/-- Model of `setCache`: stamp the current time and overwrite
unconditionally.  (A quota failure of the backing store is swallowed by
the source; the store itself is modelled as unbounded.) -/
def setCache (s : Store) (ticker : String) (data : EtfProfileData)
    (now : ℤ) : Store :=
  setEntry s (cacheKey ticker) (StoredVal.valid data now)

/-! ## ProfileFetcher (`fetchEtfProfile` in `services/alphaVantage.ts`) -/

/-- The `holdings` field of the decoded profile body as the guard
`!data.holdings || !Array.isArray(data.holdings)` sees it: absent (or
otherwise falsy), present but not an array, or an actual array. -/
inductive HoldingsField where
  | missing : HoldingsField
  | nonArray : HoldingsField
  | arr (hs : List AVHolding) : HoldingsField
deriving DecidableEq

/-- The decoded JSON body of the `ETF_PROFILE` query.  `errorMessage`,
`note` and `information` are the provider's `"Error Message"`, `"Note"`
and `"Information"` fields. -/
structure AVBody where
  errorMessage : Option String
  note : Option String
  information : Option String
  symbol : String
  net_assets : String
  portfolio_turnover : String
  net_expense_ratio : String
  dividend_yield : String
  holdingsField : HoldingsField
  sectors : Option (List AVSector)
deriving DecidableEq

/-- Outcome of the profile HTTP request: the promise rejected (network
failure), or a response arrived with the given `ok` flag, status and
decoded body. -/
inductive ProfileHttp where
  | netError : ProfileHttp
  | resp (ok : Bool) (status : ℕ) (body : AVBody) : ProfileHttp

/-- One entry of `bestMatches` in the `SYMBOL_SEARCH` response; `sym1`
models the `"1. symbol"` field and `name2` the `"2. name"` field. -/
structure BestMatch where
  sym1 : String
  name2 : String
deriving DecidableEq

/-- The `bestMatches` field as the guard
`searchData.bestMatches && Array.isArray(searchData.bestMatches)` sees
it. -/
inductive BestMatchesField where
  | nonArray : BestMatchesField
  | arr (ms : List BestMatch) : BestMatchesField
deriving DecidableEq

/-- Outcome of the best-effort symbol-search step: the request or its
JSON decoding threw (caught and absorbed by the source), or a body
arrived whose `bestMatches` field is absent, malformed or an array. -/
inductive SearchOutcome where
  | fail : SearchOutcome
  | ok (bestMatches : Option BestMatchesField) : SearchOutcome

/-- The failure taxonomy of the fetcher; each constructor corresponds to
one `throw` site of `fetchEtfProfile` (`transport` covers both the
`!response.ok` throw carrying "HTTP error! status: ..." and a rejected
`fetch` itself; `notFound` is "Ticker not found or invalid"; `rateLimited`
is "API Limit Reached (25/day)"; `dailyLimitExceeded` is "Daily Limit
Exceeded"; `noHoldingData` is "No holding data available"). -/
inductive FetchError where
  | transport : FetchError
  | notFound : FetchError
  | rateLimited : FetchError
  | dailyLimitExceeded : FetchError
  | noHoldingData : FetchError
deriving DecidableEq

/-- The name-enrichment step of `fetchEtfProfile`: on any failure, or when
`bestMatches` is unusable or holds no entry whose `"1. symbol"` equals the
ticker, the display name stays the ticker; otherwise the match's
`"2. name"` is adopted. -/
def enrichName (ticker : String) (search : SearchOutcome) : String :=
  match search with
  | SearchOutcome.fail => ticker
  | SearchOutcome.ok bm =>
      match bm with
      | some (BestMatchesField.arr ms) =>
          match ms.find? (fun m => m.sym1 = ticker) with
          | some m => m.name2
          | none => ticker
      | _ => ticker

/-- The profile assembled on success: `{...data, name: etfName}`. -/
def mkProfile (body : AVBody) (hs : List AVHolding) (etfName : String) :
    EtfProfileData :=
  { symbol := body.symbol
    name := some etfName
    net_assets := body.net_assets
    portfolio_turnover := body.portfolio_turnover
    net_expense_ratio := body.net_expense_ratio
    dividend_yield := body.dividend_yield
    holdings := hs
    sectors := body.sectors }

/-- Model of `fetchEtfProfile`.  The network environment (outcome of the
profile request and of the secondary symbol search) is passed in as data;
the function returns the overall result together with the updated backing
store.  Mirrors the source order: cache check, transport check, the three
provider-signalled error fields, the holdings-shape check, best-effort
name enrichment, cache write. -/
def fetchEtfProfile (s : Store) (ticker : String)
    (profileResp : ProfileHttp) (search : SearchOutcome) (now : ℤ) :
    Except FetchError EtfProfileData × Store :=
  match getCache s ticker now with
  | (some cached, s1) => (Except.ok cached, s1)
  | (none, s1) =>
    match profileResp with
    | ProfileHttp.netError => (Except.error FetchError.transport, s1)
    | ProfileHttp.resp ok _status body =>
      if !ok then (Except.error FetchError.transport, s1)
      else if jsTruthyStr body.errorMessage then
        (Except.error FetchError.notFound, s1)
      else if jsTruthyStr body.note then
        (Except.error FetchError.rateLimited, s1)
      else if jsTruthyStr body.information then
        (Except.error FetchError.dailyLimitExceeded, s1)
      else
        match body.holdingsField with
        | HoldingsField.arr hs =>
            let finalData := mkProfile body hs (enrichName ticker search)
            (Except.ok finalData, setCache s1 ticker finalData now)
        | _ => (Except.error FetchError.noHoldingData, s1)

/-! ## Portfolio statistics (the `stats` memo in `App.tsx`) -/

/-- The mutable accumulators of the `stats` loop. -/
structure StatsAcc where
  totalEquity : ℚ
  weightedExpense : ℚ
  weightedYield : ℚ
  validItemsCount : ℕ
deriving DecidableEq

/-- The guard `item.data && !item.error` selecting contributing
positions. -/
def isContributing (item : PortfolioItem) : Bool :=
  item.data.isSome && !jsTruthyStr item.error

/-- One iteration of the `stats` loop: for a contributing item, add its
equity, parse the expense ratio and dividend yield with
`parseFloat(x) || 0`, and accumulate the equity-weighted values. -/
def statsStep (acc : StatsAcc) (item : PortfolioItem) : StatsAcc :=
  match item.data, jsTruthyStr item.error with
  | some d, false =>
      { totalEquity := acc.totalEquity + item.equity
        weightedExpense := acc.weightedExpense +
          (parseFloat d.net_expense_ratio).orZero * item.equity
        weightedYield := acc.weightedYield +
          (parseFloat d.dividend_yield).orZero * item.equity
        validItemsCount := acc.validItemsCount + 1 }
  | _, _ => acc

/-- The result record of the `stats` memo. -/
structure Stats where
  totalEquity : ℚ
  avgExpense : ℚ
  avgDividendYield : ℚ
  totalAnnualExpense : ℚ
  totalAnnualDividend : ℚ
  hasData : Bool
deriving DecidableEq

/-- Model of the `stats` memo: fold the loop over the portfolio, then
form the averages (guarded by `totalEquity > 0`) and the `hasData` flag
(`validItemsCount > 0`). -/
def stats (portfolio : List PortfolioItem) : Stats :=
  let acc := portfolio.foldl statsStep ⟨0, 0, 0, 0⟩
  { totalEquity := acc.totalEquity
    avgExpense :=
      if 0 < acc.totalEquity then acc.weightedExpense / acc.totalEquity else 0
    avgDividendYield :=
      if 0 < acc.totalEquity then acc.weightedYield / acc.totalEquity else 0
    totalAnnualExpense := acc.weightedExpense
    totalAnnualDividend := acc.weightedYield
    hasData := decide (0 < acc.validItemsCount) }

/-! ## Aggregation (the `aggregatedData` memo in `App.tsx`) -/

/-- A running value of the holding merge map:
`{ value, name, assetClass }`. -/
structure HoldingAcc where
  value : JsNum
  name : String
  assetClass : String
deriving DecidableEq

/-- The holding merge map of `aggregatedData`. -/
abbrev HoldingMap := List (String × HoldingAcc)

/-- The sector merge map of `aggregatedData`. -/
abbrev SectorMap := List (String × JsNum)

/-- The symbol normalization guard: `!symbol`, `"N/A"` and `"-"` mark a
cash/placeholder row. -/
def isCashSymbol (s? : Option String) : Bool :=
  match s? with
  | none => true
  | some s => if s = "" ∨ s = "N/A" ∨ s = "-" then true else false

/-- The canonical key of a holding row: `"CASH"` for cash/placeholder
symbols, the raw symbol otherwise. -/
def canonKey (h : AVHolding) : String :=
  if isCashSymbol h.symbol then "CASH" else h.symbol.getD ""

/-- The description after normalization: `"Cash / Other Assets"` for
cash/placeholder rows, the raw description otherwise. -/
def canonDesc (h : AVHolding) : String :=
  if isCashSymbol h.symbol then "Cash / Other Assets" else h.description

/-- One iteration of the holdings loop of `aggregatedData`: normalize the
symbol, parse the weight (no fallback: a failed parse is `NaN`), form
`equity * weight` and merge into the map; `description || current.name`
and `holding.assets || current.assetClass` keep the last non-empty
metadata. -/
def processHolding (equity : ℚ) (m : HoldingMap) (h : AVHolding) :
    HoldingMap :=
  let symbol := canonKey h
  let description := canonDesc h
  let weight := parseFloat h.weight
  let holdingValue := JsNum.mul (JsNum.num equity) weight
  let current := (getEntry m symbol).getD
    { value := JsNum.num 0, name := description, assetClass := h.assets }
  setEntry m symbol
    { value := JsNum.add current.value holdingValue
      name := if description.isEmpty then current.name else description
      assetClass := if h.assets.isEmpty then current.assetClass else h.assets }

/-- One iteration of the sectors loop of `aggregatedData`.  The read is
`sectorMap.get(sector.sector) || 0`: an absent value and a falsy stored
value (`NaN` or `0`) both read as `0`. -/
def processSector (equity : ℚ) (m : SectorMap) (sec : AVSector) :
    SectorMap :=
  let weight := parseFloat sec.weight
  let sectorValue := JsNum.mul (JsNum.num equity) weight
  let currentVal : JsNum := match getEntry m sec.sector with
    | none => JsNum.num 0
    | some JsNum.nan => JsNum.num 0
    | some (JsNum.num q) => JsNum.num q
  setEntry m sec.sector (JsNum.add currentVal sectorValue)

/-- One iteration of the outer loop of `aggregatedData` (guard
`item.data && item.data.holdings && !item.error`; a decoded `holdings`
array is always truthy): fold the item's holdings into the holding map
and — only under `if (item.data.sectors)` — its sectors into the sector
map. -/
def aggStep (maps : HoldingMap × SectorMap) (item : PortfolioItem) :
    HoldingMap × SectorMap :=
  match item.data, jsTruthyStr item.error with
  | some d, false =>
      (d.holdings.foldl (processHolding item.equity) maps.1,
       match d.sectors with
       | some secs => secs.foldl (processSector item.equity) maps.2
       | none => maps.2)
  | _, _ => maps

/-- The merge phase of `aggregatedData`: fold every item over both maps. -/
def buildMaps (portfolio : List PortfolioItem) : HoldingMap × SectorMap :=
  portfolio.foldl aggStep ([], [])

/-- An output row of the holdings breakdown (`AggregatedHolding`). -/
structure AggregatedHolding where
  ticker : String
  name : String
  assetClass : String
  totalValue : JsNum
  percentageOfPortfolio : JsNum
deriving DecidableEq, Repr

/-- An output row of the sector breakdown (`AggregatedSector`). -/
structure AggregatedSector where
  name : String
  value : JsNum
  percentage : JsNum
deriving DecidableEq, Repr

/-- Stable insertion step modelling the JavaScript sort with comparator
`(a, b) => val(b) - val(a)`: the inserted element moves past an element
only when its value is strictly smaller (a `NaN` comparator result counts
as a tie and stops the scan). -/
def sortInsertBy {α : Type} (val : α → JsNum) (x : α) :
    List α → List α
  | [] => [x]
  | y :: ys =>
      if JsNum.lt (val x) (val y) then y :: sortInsertBy val x ys
      else x :: y :: ys

/-- Stable descending sort by a `JsNum` value (model of
`Array.prototype.sort` with comparator `(a, b) => val(b) - val(a)`). -/
def sortByDesc {α : Type} (val : α → JsNum) : List α → List α
  | [] => []
  | x :: xs => sortInsertBy val x (sortByDesc val xs)

/-- Conversion of one merge-map entry to an `AggregatedHolding`:
`percentageOfPortfolio = value / totalEquity * 100`, or `0` when
`totalEquity` is not positive. -/
def toAggHolding (totalEquity : ℚ) (e : String × HoldingAcc) :
    AggregatedHolding :=
  { ticker := e.1
    name := e.2.name
    assetClass := e.2.assetClass
    totalValue := e.2.value
    percentageOfPortfolio :=
      if 0 < totalEquity then
        JsNum.mul (JsNum.div e.2.value (JsNum.num totalEquity))
          (JsNum.num 100)
      else JsNum.num 0 }

/-- Conversion of one sector-map entry to an `AggregatedSector`. -/
def toAggSector (totalEquity : ℚ) (e : String × JsNum) :
    AggregatedSector :=
  { name := e.1
    value := e.2
    percentage :=
      if 0 < totalEquity then
        JsNum.mul (JsNum.div e.2 (JsNum.num totalEquity)) (JsNum.num 100)
      else JsNum.num 0 }

/-- Model of the `aggregatedData` memo: build both merge maps, convert
their entries (in insertion order) to output rows, and sort each list by
value descending. -/
def aggregatedData (portfolio : List PortfolioItem) :
    List AggregatedHolding × List AggregatedSector :=
  let maps := buildMaps portfolio
  let totalEquity := (stats portfolio).totalEquity
  (sortByDesc (fun a => a.totalValue)
      (maps.1.map (toAggHolding totalEquity)),
   sortByDesc (fun s => s.value)
      (maps.2.map (toAggSector totalEquity)))

/-- The holdings breakdown (the spec's `aggregateHoldings`). -/
def aggregateHoldings (portfolio : List PortfolioItem) :
    List AggregatedHolding :=
  (aggregatedData portfolio).1

/-- The sector breakdown (the spec's `aggregateSectors`). -/
def aggregateSectors (portfolio : List PortfolioItem) :
    List AggregatedSector :=
  (aggregatedData portfolio).2

/-! ## Specification-side helper definitions

These definitions restate pieces of the engine in a merge-free form (a
flat list of (equity, row) records and per-key contribution lists); the
theorems below connect them to the executable model above. -/

/-- All (equity, holding) records of the contributing positions, in
processing order. -/
def holdingRecords (portfolio : List PortfolioItem) :
    List (ℚ × AVHolding) :=
  portfolio.flatMap (fun item =>
    match item.data, jsTruthyStr item.error with
    | some d, false => d.holdings.map (fun h => (item.equity, h))
    | _, _ => [])

/-- All (equity, sector) records of the contributing positions, in
processing order. -/
def sectorRecords (portfolio : List PortfolioItem) :
    List (ℚ × AVSector) :=
  portfolio.flatMap (fun item =>
    match item.data, jsTruthyStr item.error with
    | some d, false =>
        match d.sectors with
        | some secs => secs.map (fun sec => (item.equity, sec))
        | none => []
    | _, _ => [])

/-- The value one holding record contributes: `equity * parseFloat(weight)`. -/
def contribH (r : ℚ × AVHolding) : JsNum :=
  JsNum.mul (JsNum.num r.1) (parseFloat r.2.weight)

/-- The holding merge step in record form. -/
def hstep (m : HoldingMap) (r : ℚ × AVHolding) : HoldingMap :=
  processHolding r.1 m r.2

/-- The sector merge step in record form. -/
def sstep (m : SectorMap) (r : ℚ × AVSector) : SectorMap :=
  processSector r.1 m r.2

/-- The value one sector record contributes: `equity * parseFloat(weight)`. -/
def contribS (r : ℚ × AVSector) : JsNum :=
  JsNum.mul (JsNum.num r.1) (parseFloat r.2.weight)

/-- The running value stored in a holding merge map under a key
(`0` for an absent key). -/
def valueAtH (m : HoldingMap) (k : String) : JsNum :=
  match getEntry m k with
  | some acc => acc.value
  | none => JsNum.num 0

/-- The running value stored in a sector merge map under a key
(`0` for an absent key). -/
def valueAtS (m : SectorMap) (k : String) : JsNum :=
  match getEntry m k with
  | some v => v
  | none => JsNum.num 0

/-- The total merged value of the holding bucket `k` for a portfolio. -/
def holdingBucketValue (portfolio : List PortfolioItem) (k : String) :
    JsNum :=
  valueAtH (buildMaps portfolio).1 k

/-- The total merged value of the sector bucket `k` for a portfolio. -/
def sectorBucketValue (portfolio : List PortfolioItem) (k : String) :
    JsNum :=
  valueAtS (buildMaps portfolio).2 k

/-- The contributions of all holding records whose canonical key is `k`,
in processing order. -/
def holdingContribs (portfolio : List PortfolioItem) (k : String) :
    List JsNum :=
  ((holdingRecords portfolio).filter (fun r => canonKey r.2 = k)).map contribH

/-- The contributions of all sector records with sector name `k`, in
processing order. -/
def sectorContribs (portfolio : List PortfolioItem) (k : String) :
    List JsNum :=
  ((sectorRecords portfolio).filter (fun r => r.2.sector = k)).map contribS

/-- The JavaScript read `x || 0` on a stored number: `NaN` (and `0`)
read back as `0`. -/
def readOrZero : JsNum → JsNum
  | JsNum.nan => JsNum.num 0
  | JsNum.num q => JsNum.num q

/-- One accumulation step of the sector merge as seen through the values:
the stored accumulator is read through `|| 0` and the contribution is
added. -/
def sectorValStep (acc v : JsNum) : JsNum :=
  JsNum.add (readOrZero acc) v

/-- The holdings breakdown rows in first-insertion order, before the
final sort. -/
def preSortHoldings (portfolio : List PortfolioItem) :
    List AggregatedHolding :=
  ((buildMaps portfolio).1).map (toAggHolding (stats portfolio).totalEquity)

/-- Boolean descending comparison for output values: true when both
values are numeric and the first is at least the second. -/
def jsGeB : JsNum → JsNum → Bool
  | JsNum.num a, JsNum.num b => decide (b ≤ a)
  | _, _ => false

/-- The keys of a merge map, in insertion order. -/
def keysOf {V : Type} (m : List (String × V)) : List String :=
  m.map Prod.fst

/-! ## Concrete demonstration inputs (used by the scenario claims and
the witnesses) -/

/-- A tiny profile for the `SPY` position of the spec's numeric
scenario: one `AAPL` holding with weight `"0.07"`. -/
def spyDemoProfile : EtfProfileData :=
  { symbol := "SPY", name := some "SPY", net_assets := "0"
    portfolio_turnover := "0", net_expense_ratio := "0"
    dividend_yield := "0"
    holdings := [{ symbol := some "AAPL", description := "Apple Inc"
                   weight := "0.07", assets := "Equity" }]
    sectors := none }

/-- A tiny profile for the `QQQ` position of the spec's numeric
scenario: one `AAPL` holding with weight `"0.10"`. -/
def qqqDemoProfile : EtfProfileData :=
  { symbol := "QQQ", name := some "QQQ", net_assets := "0"
    portfolio_turnover := "0", net_expense_ratio := "0"
    dividend_yield := "0"
    holdings := [{ symbol := some "AAPL", description := "Apple Inc"
                   weight := "0.10", assets := "Equity" }]
    sectors := none }

/-- The two-position portfolio of the spec's numeric scenario:
`SPY` with equity 10000 and `QQQ` with equity 5000. -/
def demoPortfolio : List PortfolioItem :=
  [{ id := "1", ticker := "SPY", equity := 10000
     data := some spyDemoProfile, isLoading := false, error := none },
   { id := "2", ticker := "QQQ", equity := 5000
     data := some qqqDemoProfile, isLoading := false, error := none }]

/-- A profile whose single fund mixes one malformed-weight `AAPL` row
with one well-formed `AAPL` row (for the weight-parsing counterexample). -/
def badWeightProfile : EtfProfileData :=
  { symbol := "BAD", name := some "BAD", net_assets := "0"
    portfolio_turnover := "0", net_expense_ratio := "0"
    dividend_yield := "0"
    holdings := [{ symbol := some "AAPL", description := "Apple Inc"
                   weight := "0.5", assets := "Equity" },
                 { symbol := some "AAPL", description := "Apple Inc"
                   weight := "garbage", assets := "Equity" }]
    sectors := none }

/-- A one-position portfolio built on `badWeightProfile`, equity 1000. -/
def badWeightPortfolio : List PortfolioItem :=
  [{ id := "1", ticker := "BAD", equity := 1000
     data := some badWeightProfile, isLoading := false, error := none }]

/-- A profile holding one placeholder (`"N/A"`) row and one row natively
labelled `"CASH"` (for the cash-bucket counterexample). -/
def nativeCashProfile : EtfProfileData :=
  { symbol := "MIX", name := some "MIX", net_assets := "0"
    portfolio_turnover := "0", net_expense_ratio := "0"
    dividend_yield := "0"
    holdings := [{ symbol := some "N/A", description := ""
                   weight := "0.1", assets := "" },
                 { symbol := some "CASH", description := "US Dollar"
                   weight := "0.2", assets := "Cash" }]
    sectors := none }

/-- A one-position portfolio built on `nativeCashProfile`, equity 1000. -/
def nativeCashPortfolio : List PortfolioItem :=
  [{ id := "1", ticker := "MIX", equity := 1000
     data := some nativeCashProfile, isLoading := false, error := none }]

/-- A profile with a `null`-symbol holding (for the cash-merge
scenario), weight `"0.2"`. -/
def nullCashProfile : EtfProfileData :=
  { symbol := "NUL", name := some "NUL", net_assets := "0"
    portfolio_turnover := "0", net_expense_ratio := "0"
    dividend_yield := "0"
    holdings := [{ symbol := none, description := ""
                   weight := "0.2", assets := "" }]
    sectors := none }

/-- A profile with an `"N/A"`-symbol holding, weight `"0.1"`. -/
def naCashProfile : EtfProfileData :=
  { symbol := "NAP", name := some "NAP", net_assets := "0"
    portfolio_turnover := "0", net_expense_ratio := "0"
    dividend_yield := "0"
    holdings := [{ symbol := some "N/A", description := ""
                   weight := "0.1", assets := "" }]
    sectors := none }

/-- A two-fund portfolio exercising the cash-merge scenario: an `"N/A"`
holding in one fund and a `null`-symbol holding in the other. -/
def cashMergePortfolio : List PortfolioItem :=
  [{ id := "1", ticker := "NAP", equity := 1000
     data := some naCashProfile, isLoading := false, error := none },
   { id := "2", ticker := "NUL", equity := 500
     data := some nullCashProfile, isLoading := false, error := none }]

/-- A one-position portfolio with a present profile but a zero equity
value (its `totalEquity` is `0` while holdings are present). -/
def zeroEquityPortfolio : List PortfolioItem :=
  [{ id := "1", ticker := "SPY", equity := 0
     data := some spyDemoProfile, isLoading := false, error := none }]

/-- A profile whose first holding has a malformed weight (so its bucket
merges to `NaN`) and whose second holding is well-formed under a
different key (for the sort counterexample). -/
def nanBucketProfile : EtfProfileData :=
  { symbol := "NAN", name := some "NAN", net_assets := "0"
    portfolio_turnover := "0", net_expense_ratio := "0"
    dividend_yield := "0"
    holdings := [{ symbol := some "BAD", description := "Bad Inc"
                   weight := "garbage", assets := "Equity" },
                 { symbol := some "AAPL", description := "Apple Inc"
                   weight := "0.5", assets := "Equity" }]
    sectors := none }

/-- A one-position portfolio built on `nanBucketProfile`, equity 1000:
its merge map holds a `NaN` bucket (`BAD`) inserted before a numeric
bucket (`AAPL`, value 500). -/
def nanBucketPortfolio : List PortfolioItem :=
  [{ id := "1", ticker := "NAN", equity := 1000
     data := some nanBucketProfile, isLoading := false, error := none }]

/-- The enrichment-failure condition of the name-enrichment claim: the
secondary search failed with a network or decoding error, returned no
usable `bestMatches` array, or returned no entry whose `"1. symbol"`
matches the requested ticker. -/
def enrichFailed (ticker : String) (search : SearchOutcome) : Prop :=
  match search with
  | SearchOutcome.fail => True
  | SearchOutcome.ok none => True
  | SearchOutcome.ok (some BestMatchesField.nonArray) => True
  | SearchOutcome.ok (some (BestMatchesField.arr ms)) =>
      ms.find? (fun m => m.sym1 = ticker) = none

/-! ## Basic lemmas about the map and store operations -/

theorem getEntry_setEntry_self {V : Type} (m : List (String × V))
    (k : String) (v : V) : getEntry (setEntry m k v) k = some v := by
  induction m with
  | nil => simp [setEntry, getEntry]
  | cons e rest ih =>
      by_cases h : e.1 = k
      · simp [setEntry, getEntry, h]
      · simp [setEntry, getEntry, h, ih]

theorem getEntry_setEntry_ne {V : Type} (m : List (String × V))
    (k k' : String) (v : V) (h : k ≠ k') :
    getEntry (setEntry m k v) k' = getEntry m k' := by
  induction m with
  | nil => simp [setEntry, getEntry, h]
  | cons e rest ih =>
      by_cases he : e.1 = k
      · simp [setEntry, getEntry, he, h]
      · simp [setEntry, getEntry, he, ih]

theorem getEntry_storeRemove (s : Store) (k : String) :
    getEntry (storeRemove s k) k = none := by
  induction s with
  | nil => simp [storeRemove, getEntry]
  | cons e rest ih =>
      by_cases h : e.1 = k
      · simp [storeRemove, h, ih]
      · simp [storeRemove, getEntry, h, ih]

/-! ## Evaluation lemmas for `parseFloat` -/

theorem parseFloat_num (s : String) (neg : Bool) (ds fs : List Char)
    (h : floatParts s = ⟨neg, ds, fs⟩)
    (hne : ds.isEmpty = false ∨ fs.isEmpty = false) :
    parseFloat s = JsNum.num (((if neg then -1 else 1) : ℚ) *
      ((digitsVal ds : ℚ) + (digitsVal fs : ℚ) / (10 ^ fs.length))) := by
  unfold parseFloat
  rw [h]
  rcases hne with h1 | h1 <;> simp [h1]

theorem parseFloat_nan (s : String)
    (h : floatParts s = ⟨false, [], []⟩ ∨ floatParts s = ⟨true, [], []⟩) :
    parseFloat s = JsNum.nan := by
  unfold parseFloat
  rcases h with h | h <;> rw [h] <;> simp

theorem pf_007 : parseFloat "0.07" = JsNum.num (7 / 100) := by
  rw [parseFloat_num "0.07" false ['0'] ['0', '7'] (by decide) (by decide)]
  norm_num [show digitsVal ['0'] = 0 from by decide,
    show digitsVal ['0', '7'] = 7 from by decide]

theorem pf_010 : parseFloat "0.10" = JsNum.num (1 / 10) := by
  rw [parseFloat_num "0.10" false ['0'] ['1', '0'] (by decide) (by decide)]
  norm_num [show digitsVal ['0'] = 0 from by decide,
    show digitsVal ['1', '0'] = 10 from by decide]

theorem pf_05 : parseFloat "0.5" = JsNum.num (1 / 2) := by
  rw [parseFloat_num "0.5" false ['0'] ['5'] (by decide) (by decide)]
  norm_num [show digitsVal ['0'] = 0 from by decide,
    show digitsVal ['5'] = 5 from by decide]

theorem pf_01 : parseFloat "0.1" = JsNum.num (1 / 10) := by
  rw [parseFloat_num "0.1" false ['0'] ['1'] (by decide) (by decide)]
  norm_num [show digitsVal ['0'] = 0 from by decide,
    show digitsVal ['1'] = 1 from by decide]

theorem pf_02 : parseFloat "0.2" = JsNum.num (1 / 5) := by
  rw [parseFloat_num "0.2" false ['0'] ['2'] (by decide) (by decide)]
  norm_num [show digitsVal ['0'] = 0 from by decide,
    show digitsVal ['2'] = 2 from by decide]

theorem pf_0 : parseFloat "0" = JsNum.num 0 := by
  rw [parseFloat_num "0" false ['0'] [] (by decide) (by decide)]
  norm_num [show digitsVal ['0'] = 0 from by decide,
    show digitsVal [] = 0 from by decide]

theorem pf_garbage : parseFloat "garbage" = JsNum.nan := by
  apply parseFloat_nan
  left
  decide

/-! ## Lemmas about the statistics fold -/

theorem statsFold_totalEquity (p : List PortfolioItem) (a : StatsAcc) :
    (p.foldl statsStep a).totalEquity =
      a.totalEquity + ((p.filter isContributing).map PortfolioItem.equity).sum := by
  induction p generalizing a with
  | nil => simp
  | cons item rest ih =>
      rcases hd : item.data with _ | d <;> cases he : jsTruthyStr item.error <;>
        simp [List.foldl_cons, ih, statsStep, isContributing, hd, he, add_assoc]

theorem statsFold_count (p : List PortfolioItem) (a : StatsAcc) :
    (p.foldl statsStep a).validItemsCount =
      a.validItemsCount + (p.filter isContributing).length := by
  induction p generalizing a with
  | nil => simp
  | cons item rest ih =>
      rcases hd : item.data with _ | d <;> cases he : jsTruthyStr item.error <;>
        simp [List.foldl_cons, ih, statsStep, isContributing, hd, he, add_assoc,
          add_comm 1]

/-! ## Claim C4 -/

/-- C4: for all position sets, `computeStats.totalEquity` equals the sum
of the equities of exactly the positions with a present profile and no
error (the guard `item.data && !item.error`); the result is invariant
under permutation of the position set; and `hasUsableData` holds exactly
when at least one contributing position exists. -/
theorem claim_c4 (p q : List PortfolioItem) (hperm : p.Perm q) :
    (stats p).totalEquity =
        ((p.filter isContributing).map PortfolioItem.equity).sum
    ∧ (stats p).totalEquity = (stats q).totalEquity
    ∧ ((stats p).hasData = true ↔ ∃ item ∈ p, isContributing item = true) := by
  refine ⟨?_, ?_, ?_⟩
  · simp [stats, statsFold_totalEquity]
  · simp only [stats, statsFold_totalEquity, zero_add]
    exact ((hperm.filter isContributing).map PortfolioItem.equity).sum_eq
  · simp only [stats, statsFold_count, Nat.zero_add, decide_eq_true_eq]
    rw [List.length_pos_iff_exists_mem]
    constructor
    · rintro ⟨a, ha⟩
      exact ⟨a, (List.mem_filter.1 ha).1, (List.mem_filter.1 ha).2⟩
    · rintro ⟨a, ha, hc⟩
      exact ⟨a, List.mem_filter.2 ⟨ha, hc⟩⟩

/-- Witness for C4 at the two-position demo portfolio and a reversal of
it. -/
theorem claim_c4_witness :
    (stats demoPortfolio).totalEquity =
        ((demoPortfolio.filter isContributing).map PortfolioItem.equity).sum
    ∧ (stats demoPortfolio).totalEquity =
        (stats demoPortfolio.reverse).totalEquity
    ∧ ((stats demoPortfolio).hasData = true ↔
        ∃ item ∈ demoPortfolio, isContributing item = true) :=
  claim_c4 demoPortfolio demoPortfolio.reverse
    (List.reverse_perm demoPortfolio).symm

/-! ## Claim C2 -/

/-- C2: writing a profile with `setCache` and reading it back with
`getCache` strictly inside the 86,400,000 ms TTL returns the profile
unchanged (and leaves the store untouched); reading at or after the TTL
returns absent and removes the entry from the store. -/
theorem claim_c2 (s : Store) (k : String) (v : EtfProfileData)
    (t now1 now2 : ℤ) (h1 : now1 - t < CACHE_DURATION)
    (h2 : CACHE_DURATION ≤ now2 - t) :
    getCache (setCache s k v t) k now1 = (some v, setCache s k v t)
    ∧ (getCache (setCache s k v t) k now2).1 = none
    ∧ getEntry (getCache (setCache s k v t) k now2).2 (cacheKey k) = none := by
  simp only [getCache, setCache, getEntry_setEntry_self]
  simp [h1, not_lt.2 h2, getEntry_storeRemove]

/-- Witness for C2: a concrete put at time 0 read back at times 0 and
86,400,000. -/
theorem claim_c2_witness :
    ((0 : ℤ) - 0 < CACHE_DURATION ∧ CACHE_DURATION ≤ (86400000 : ℤ) - 0)
    ∧ (getCache (setCache [] "SPY" spyDemoProfile 0) "SPY" 0 =
          (some spyDemoProfile, setCache [] "SPY" spyDemoProfile 0)
       ∧ (getCache (setCache [] "SPY" spyDemoProfile 0) "SPY" 86400000).1 = none
       ∧ getEntry (getCache (setCache [] "SPY" spyDemoProfile 0) "SPY" 86400000).2
            (cacheKey "SPY") = none) :=
  ⟨⟨by decide, by decide⟩,
   claim_c2 [] "SPY" spyDemoProfile 0 0 86400000 (by decide) (by decide)⟩

/-! ## Claim C10 -/

/-- C10: when the stored value under a ticker's cache key cannot be
decoded as a well-formed cache entry, `getCache` reports a miss and
removes the corrupted entry from the backing store. -/
theorem claim_c10 (s : Store) (ticker : String) (now : ℤ)
    (h : getEntry s (cacheKey ticker) = some StoredVal.malformed) :
    getCache s ticker now = (none, storeRemove s (cacheKey ticker))
    ∧ getEntry (getCache s ticker now).2 (cacheKey ticker) = none := by
  simp only [getCache, h]
  simp [getEntry_storeRemove]

/-- Witness for C10: a store holding one corrupted entry under the
`SPY` cache key. -/
theorem claim_c10_witness :
    getEntry [(cacheKey "SPY", StoredVal.malformed)] (cacheKey "SPY") =
        some StoredVal.malformed
    ∧ (getCache [(cacheKey "SPY", StoredVal.malformed)] "SPY" 5 =
          (none, storeRemove [(cacheKey "SPY", StoredVal.malformed)] (cacheKey "SPY"))
       ∧ getEntry (getCache [(cacheKey "SPY", StoredVal.malformed)] "SPY" 5).2
            (cacheKey "SPY") = none) :=
  ⟨by decide, claim_c10 [(cacheKey "SPY", StoredVal.malformed)] "SPY" 5 (by decide)⟩

/-! ## Claim C3 -/

/-- C3: on a cache miss, the fetcher classifies failures in the source's
fixed order — non-success HTTP response to `Transport`, then an explicit
error field to `NotFound`, then a note field to `RateLimited`, then an
information field to `DailyLimitExceeded`, then a missing or non-array
holdings list to `NoHoldingData` — and exactly the bodies passing all
five checks succeed; the stated characterizations make the outcomes
mutually exclusive. -/
theorem claim_c3 (s s1 : Store) (ticker : String) (ok : Bool)
    (status : ℕ) (body : AVBody) (search : SearchOutcome) (now : ℤ)
    (hmiss : getCache s ticker now = (none, s1)) :
    let res := (fetchEtfProfile s ticker (ProfileHttp.resp ok status body)
      search now).1
    (res = Except.error FetchError.transport ↔ ok = false)
    ∧ (res = Except.error FetchError.notFound ↔
        ok = true ∧ jsTruthyStr body.errorMessage = true)
    ∧ (res = Except.error FetchError.rateLimited ↔
        ok = true ∧ jsTruthyStr body.errorMessage = false
        ∧ jsTruthyStr body.note = true)
    ∧ (res = Except.error FetchError.dailyLimitExceeded ↔
        ok = true ∧ jsTruthyStr body.errorMessage = false
        ∧ jsTruthyStr body.note = false
        ∧ jsTruthyStr body.information = true)
    ∧ (res = Except.error FetchError.noHoldingData ↔
        ok = true ∧ jsTruthyStr body.errorMessage = false
        ∧ jsTruthyStr body.note = false
        ∧ jsTruthyStr body.information = false
        ∧ ∀ hs, body.holdingsField ≠ HoldingsField.arr hs)
    ∧ ((∃ d, res = Except.ok d) ↔
        ok = true ∧ jsTruthyStr body.errorMessage = false
        ∧ jsTruthyStr body.note = false
        ∧ jsTruthyStr body.information = false
        ∧ ∃ hs, body.holdingsField = HoldingsField.arr hs) := by
  simp only [fetchEtfProfile, hmiss]
  cases ok <;>
    cases hE : jsTruthyStr body.errorMessage <;>
      cases hN : jsTruthyStr body.note <;>
        cases hI : jsTruthyStr body.information <;>
          rcases hH : body.holdingsField with _ | _ | hs <;>
            simp [hE, hN, hI, hH]

/-- Witness for C3: an empty store (a guaranteed miss) and a concrete
non-success response. -/
theorem claim_c3_witness :
    getCache [] "SPY" (0 : ℤ) = (none, [])
    ∧ (let res := (fetchEtfProfile [] "SPY"
        (ProfileHttp.resp false 500
          { errorMessage := none, note := none, information := none
            symbol := "SPY", net_assets := "0", portfolio_turnover := "0"
            net_expense_ratio := "0", dividend_yield := "0"
            holdingsField := HoldingsField.missing, sectors := none })
        SearchOutcome.fail 0).1
       (res = Except.error FetchError.transport ↔ false = false)
       ∧ (res = Except.error FetchError.notFound ↔
           false = true ∧ jsTruthyStr none = true)
       ∧ (res = Except.error FetchError.rateLimited ↔
           false = true ∧ jsTruthyStr none = false ∧ jsTruthyStr none = true)
       ∧ (res = Except.error FetchError.dailyLimitExceeded ↔
           false = true ∧ jsTruthyStr none = false ∧ jsTruthyStr none = false
           ∧ jsTruthyStr none = true)
       ∧ (res = Except.error FetchError.noHoldingData ↔
           false = true ∧ jsTruthyStr none = false ∧ jsTruthyStr none = false
           ∧ jsTruthyStr none = false
           ∧ ∀ hs, HoldingsField.missing ≠ HoldingsField.arr hs)
       ∧ ((∃ d, res = Except.ok d) ↔
           false = true ∧ jsTruthyStr none = false ∧ jsTruthyStr none = false
           ∧ jsTruthyStr none = false
           ∧ ∃ hs, HoldingsField.missing = HoldingsField.arr hs)) :=
  ⟨rfl, claim_c3 [] [] "SPY" false 500
    { errorMessage := none, note := none, information := none
      symbol := "SPY", net_assets := "0", portfolio_turnover := "0"
      net_expense_ratio := "0", dividend_yield := "0"
      holdingsField := HoldingsField.missing, sectors := none }
    SearchOutcome.fail 0 rfl⟩

/-! ## Claim C8 -/

/-- C8: when the profile fetch passes all of its checks on a cache miss,
then for every possible outcome of the best-effort name-enrichment step
the overall fetch succeeds with the same profile data (only the display
name depends on the search outcome), and on any enrichment failure the
display name is the requested ticker itself. -/
theorem claim_c8 (s s1 : Store) (ticker : String) (status : ℕ)
    (body : AVBody) (hs : List AVHolding) (now : ℤ)
    (hmiss : getCache s ticker now = (none, s1))
    (hE : jsTruthyStr body.errorMessage = false)
    (hN : jsTruthyStr body.note = false)
    (hI : jsTruthyStr body.information = false)
    (hH : body.holdingsField = HoldingsField.arr hs) :
    ∀ search : SearchOutcome,
      (fetchEtfProfile s ticker (ProfileHttp.resp true status body)
          search now).1 =
        Except.ok (mkProfile body hs (enrichName ticker search))
      ∧ (enrichFailed ticker search →
          enrichName ticker search = ticker) := by
  intro search
  constructor
  · simp [fetchEtfProfile, hmiss, hE, hN, hI, hH]
  · intro hfail
    rcases search with _ | bm
    · simp [enrichName]
    · rcases bm with _ | bmf
      · simp [enrichName]
      · rcases bmf with _ | ms
        · simp [enrichName]
        · simp only [enrichFailed] at hfail
          simp [enrichName, hfail]

/-- Witness for C8: a concrete passing body and the failing search
outcome. -/
theorem claim_c8_witness :
    getCache [] "SPY" (0 : ℤ) = (none, [])
    ∧ jsTruthyStr none = false
    ∧ ((fetchEtfProfile [] "SPY"
        (ProfileHttp.resp true 200
          { errorMessage := none, note := none, information := none
            symbol := "SPY", net_assets := "0", portfolio_turnover := "0"
            net_expense_ratio := "0", dividend_yield := "0"
            holdingsField := HoldingsField.arr spyDemoProfile.holdings
            sectors := none })
        SearchOutcome.fail 0).1 =
          Except.ok (mkProfile
            { errorMessage := none, note := none, information := none
              symbol := "SPY", net_assets := "0", portfolio_turnover := "0"
              net_expense_ratio := "0", dividend_yield := "0"
              holdingsField := HoldingsField.arr spyDemoProfile.holdings
              sectors := none }
            spyDemoProfile.holdings (enrichName "SPY" SearchOutcome.fail))
       ∧ (enrichFailed "SPY" SearchOutcome.fail →
           enrichName "SPY" SearchOutcome.fail = "SPY")) :=
  ⟨rfl, rfl,
   claim_c8 [] [] "SPY" 200
     { errorMessage := none, note := none, information := none
       symbol := "SPY", net_assets := "0", portfolio_turnover := "0"
       net_expense_ratio := "0", dividend_yield := "0"
       holdingsField := HoldingsField.arr spyDemoProfile.holdings
       sectors := none }
     spyDemoProfile.holdings 0 rfl rfl rfl rfl rfl SearchOutcome.fail⟩

/-! ## The merge maps as folds over the flat record lists -/

theorem buildMaps_foldl_fst (p : List PortfolioItem) (m : HoldingMap)
    (sm : SectorMap) :
    (p.foldl aggStep (m, sm)).1 = (holdingRecords p).foldl hstep m := by
  induction p generalizing m sm with
  | nil => simp [holdingRecords]
  | cons item rest ih =>
      rcases hd : item.data with _ | d <;> cases he : jsTruthyStr item.error
      · simp [holdingRecords, List.foldl_cons, aggStep, hd, he, ih]
      · simp [holdingRecords, List.foldl_cons, aggStep, hd, he, ih]
      · simp only [holdingRecords, List.flatMap_cons, List.foldl_cons,
          aggStep, hd, he, List.foldl_append, List.foldl_map]
        rw [← holdingRecords]
        rcases hs : d.sectors with _ | secs <;>
          simp [ih, hstep, List.foldl_map]
      · simp [holdingRecords, List.foldl_cons, aggStep, hd, he, ih]

theorem buildMaps_foldl_snd (p : List PortfolioItem) (m : HoldingMap)
    (sm : SectorMap) :
    (p.foldl aggStep (m, sm)).2 = (sectorRecords p).foldl sstep sm := by
  induction p generalizing m sm with
  | nil => simp [sectorRecords]
  | cons item rest ih =>
      rcases hd : item.data with _ | d <;> cases he : jsTruthyStr item.error
      · simp [sectorRecords, List.foldl_cons, aggStep, hd, he, ih]
      · simp [sectorRecords, List.foldl_cons, aggStep, hd, he, ih]
      · simp only [sectorRecords, List.flatMap_cons, List.foldl_cons,
          aggStep, hd, he, List.foldl_append, List.foldl_map]
        rw [← sectorRecords]
        rcases hs : d.sectors with _ | secs <;>
          simp [hs, ih, sstep, List.foldl_map]
      · simp [sectorRecords, List.foldl_cons, aggStep, hd, he, ih]

theorem buildMaps_fst (p : List PortfolioItem) :
    (buildMaps p).1 = (holdingRecords p).foldl hstep [] :=
  buildMaps_foldl_fst p [] []

theorem buildMaps_snd (p : List PortfolioItem) :
    (buildMaps p).2 = (sectorRecords p).foldl sstep [] :=
  buildMaps_foldl_snd p [] []

/-! ## Per-key value characterization of the merges -/

theorem valueAtH_processHolding (e : ℚ) (m : HoldingMap) (h : AVHolding)
    (k : String) :
    valueAtH (processHolding e m h) k =
      if canonKey h = k then JsNum.add (valueAtH m k) (contribH (e, h))
      else valueAtH m k := by
  by_cases hk : canonKey h = k
  · subst hk
    simp only [processHolding, valueAtH, contribH, if_pos rfl,
      getEntry_setEntry_self]
    rcases hg : getEntry m (canonKey h) with _ | acc <;> simp [hg]
  · simp only [processHolding, valueAtH, if_neg hk,
      getEntry_setEntry_ne _ _ _ _ hk]

theorem valueAtH_foldl (rs : List (ℚ × AVHolding)) (m : HoldingMap)
    (k : String) :
    valueAtH (rs.foldl hstep m) k =
      ((rs.filter (fun r => canonKey r.2 = k)).map contribH).foldl
        JsNum.add (valueAtH m k) := by
  induction rs generalizing m with
  | nil => simp
  | cons r rest ih =>
      by_cases hk : canonKey r.2 = k
      · simp [List.foldl_cons, ih, hstep, valueAtH_processHolding, hk]
      · simp [List.foldl_cons, ih, hstep, valueAtH_processHolding, hk]

theorem valueAtS_processSector (e : ℚ) (m : SectorMap) (sec : AVSector)
    (k : String) :
    valueAtS (processSector e m sec) k =
      if sec.sector = k then
        sectorValStep (valueAtS m k) (contribS (e, sec))
      else valueAtS m k := by
  by_cases hk : sec.sector = k
  · subst hk
    simp only [processSector, valueAtS, contribS, sectorValStep, readOrZero,
      if_pos rfl, getEntry_setEntry_self]
    rcases hg : getEntry m sec.sector with _ | v
    · simp [hg]
    · rcases v with _ | q <;> simp [hg, readOrZero]
  · simp only [processSector, valueAtS, if_neg hk,
      getEntry_setEntry_ne _ _ _ _ hk]

theorem valueAtS_foldl (rs : List (ℚ × AVSector)) (m : SectorMap)
    (k : String) :
    valueAtS (rs.foldl sstep m) k =
      ((rs.filter (fun r => r.2.sector = k)).map contribS).foldl
        sectorValStep (valueAtS m k) := by
  induction rs generalizing m with
  | nil => simp
  | cons r rest ih =>
      by_cases hk : r.2.sector = k
      · simp [List.foldl_cons, ih, sstep, valueAtS_processSector, hk]
      · simp [List.foldl_cons, ih, sstep, valueAtS_processSector, hk]

/-! ## Claim C1 (corrected): bucket values are exactly the per-key
contribution folds -/

/-- Counterexample to C1 as stated: in a fund whose `AAPL` rows carry
weights `"0.5"` and `"garbage"`, the claim predicts an `AAPL` bucket of
`1000 * 0.5 = 500` (the malformed record contributing nothing); the code
instead produces `NaN` for the whole bucket, because
`parseFloat("garbage")` is `NaN` and the merge has no `|| 0` fallback. -/
theorem claim_c1_counterexample :
    parseFloat "garbage" = JsNum.nan
    ∧ ((aggregateHoldings badWeightPortfolio).find?
        (fun a => a.ticker = "AAPL")).map (fun a => a.totalValue) =
          some JsNum.nan
    ∧ ((aggregateHoldings badWeightPortfolio).find?
        (fun a => a.ticker = "AAPL")).map (fun a => a.totalValue) ≠
          some (JsNum.num 500) := by
  refine ⟨pf_garbage, ?_, ?_⟩ <;>
    norm_num +decide [aggregateHoldings, aggregatedData, buildMaps, aggStep,
      stats, statsStep, processHolding, pf_05, pf_garbage, pf_0, canonKey,
      canonDesc, isCashSymbol, getEntry, setEntry, sortByDesc, sortInsertBy,
      toAggHolding, JsNum.add, JsNum.mul, JsNum.div, JsNum.lt, jsTruthyStr,
      JsNum.orZero, List.find?, badWeightPortfolio, badWeightProfile]

/-- C1 (amended): in the aggregation, the weight of every record is
`parseFloat(weight)` with no fallback — `NaN` for a non-numeric string —
and each record's contribution `equity * weight` merges into exactly the
bucket of its canonical key, leaving every other bucket untouched and
never aborting: a holding bucket equals the plain `NaN`-propagating sum
of its own records' contributions, and a sector bucket equals the same
fold except that the accumulator is re-read through `|| 0`, which resets
a stored `NaN` (or `0`) to `0` before the next addition.  (In
`computeStats`, by contrast, `parseFloat(x) || 0` maps a parse failure
to `0`; see `statsStep`.) -/
theorem claim_c1_amended (p : List PortfolioItem) (k : String) :
    holdingBucketValue p k =
        (holdingContribs p k).foldl JsNum.add (JsNum.num 0)
    ∧ sectorBucketValue p k =
        (sectorContribs p k).foldl sectorValStep (JsNum.num 0) := by
  constructor
  · rw [holdingBucketValue, buildMaps_fst, valueAtH_foldl]
    simp [holdingContribs, valueAtH, getEntry]
  · rw [sectorBucketValue, buildMaps_snd, valueAtS_foldl]
    simp [sectorContribs, valueAtS, getEntry]

/-! ## Lemmas about the stable descending sort -/

theorem mem_sortInsertBy {α : Type} (val : α → JsNum) (x a : α)
    (l : List α) : a ∈ sortInsertBy val x l ↔ a = x ∨ a ∈ l := by
  induction l with
  | nil => simp [sortInsertBy]
  | cons y ys ih =>
      by_cases hc : JsNum.lt (val x) (val y) = true
      · simp [sortInsertBy, hc, ih]
        tauto
      · simp only [Bool.not_eq_true] at hc
        simp [sortInsertBy, hc]

theorem sortInsertBy_perm {α : Type} (val : α → JsNum) (x : α)
    (l : List α) : (sortInsertBy val x l).Perm (x :: l) := by
  induction l with
  | nil => simp [sortInsertBy]
  | cons y ys ih =>
      by_cases hc : JsNum.lt (val x) (val y) = true
      · simp only [sortInsertBy, hc, if_true]
        exact (ih.cons y).trans (List.Perm.swap x y ys)
      · simp only [Bool.not_eq_true] at hc
        simp [sortInsertBy, hc]

theorem sortByDesc_perm {α : Type} (val : α → JsNum) (l : List α) :
    (sortByDesc val l).Perm l := by
  induction l with
  | nil => simp [sortByDesc]
  | cons x xs ih =>
      exact (sortInsertBy_perm val x (sortByDesc val xs)).trans (ih.cons x)

theorem mem_sortByDesc {α : Type} (val : α → JsNum) (a : α) (l : List α) :
    a ∈ sortByDesc val l ↔ a ∈ l :=
  (sortByDesc_perm val l).mem_iff

theorem jsGeB_trans (a b c : JsNum) (h1 : jsGeB a b = true)
    (h2 : jsGeB b c = true) : jsGeB a c = true := by
  rcases a with _ | x <;> rcases b with _ | y <;> rcases c with _ | z <;>
    simp_all [jsGeB]
  linarith

theorem jsGeB_of_not_lt (a b : JsNum) (hx : ∃ q : ℚ, a = JsNum.num q)
    (hy : ∃ q : ℚ, b = JsNum.num q) (h : JsNum.lt a b = false) :
    jsGeB a b = true := by
  rcases hx with ⟨x, rfl⟩
  rcases hy with ⟨y, rfl⟩
  simp_all [JsNum.lt, jsGeB]

theorem jsGeB_of_lt (a b : JsNum) (h : JsNum.lt a b = true) :
    jsGeB b a = true := by
  rcases a with _ | x <;> rcases b with _ | y <;> simp_all [JsNum.lt, jsGeB]
  linarith

theorem pairwise_sortInsertBy {α : Type} (val : α → JsNum) (x : α)
    (l : List α) (hx : ∃ q : ℚ, val x = JsNum.num q)
    (hl : ∀ a ∈ l, ∃ q : ℚ, val a = JsNum.num q)
    (h : l.Pairwise (fun a b => jsGeB (val a) (val b) = true)) :
    (sortInsertBy val x l).Pairwise
      (fun a b => jsGeB (val a) (val b) = true) := by
  induction l with
  | nil => simp [sortInsertBy]
  | cons y ys ih =>
      rcases List.pairwise_cons.1 h with ⟨hy, hys⟩
      by_cases hc : JsNum.lt (val x) (val y) = true
      · simp only [sortInsertBy, hc, if_true]
        refine List.pairwise_cons.2 ⟨?_, ?_⟩
        · intro z hz
          rcases (mem_sortInsertBy val x z ys).1 hz with rfl | hz
          · exact jsGeB_of_lt _ _ hc
          · exact hy z hz
        · exact ih (fun a ha => hl a (List.mem_cons_of_mem y ha)) hys
      · simp only [Bool.not_eq_true] at hc
        simp only [sortInsertBy, hc, Bool.false_eq_true, if_false]
        refine List.pairwise_cons.2 ⟨?_, h⟩
        intro z hz
        rcases List.mem_cons.1 hz with hzy | hz
        · rw [hzy]
          exact jsGeB_of_not_lt _ _ hx (hl y (List.mem_cons_self y ys)) hc
        · exact jsGeB_trans _ _ _
            (jsGeB_of_not_lt _ _ hx (hl y (List.mem_cons_self y ys)) hc)
            (hy z hz)

theorem pairwise_sortByDesc {α : Type} (val : α → JsNum) (l : List α)
    (hl : ∀ a ∈ l, ∃ q : ℚ, val a = JsNum.num q) :
    (sortByDesc val l).Pairwise
      (fun a b => jsGeB (val a) (val b) = true) := by
  induction l with
  | nil => simp [sortByDesc]
  | cons x xs ih =>
      refine pairwise_sortInsertBy val x (sortByDesc val xs)
        (hl x (List.mem_cons_self x xs)) ?_ ?_
      · intro a ha
        exact hl a (List.mem_cons_of_mem x ((mem_sortByDesc val a xs).1 ha))
      · exact ih (fun a ha => hl a (List.mem_cons_of_mem x ha))

/-! ## Stability of the sort: equal-value rows keep their insertion
order -/

theorem lt_num_dest (v : ℚ) (b : JsNum)
    (h : JsNum.lt (JsNum.num v) b = true) :
    ∃ w : ℚ, b = JsNum.num w ∧ v < w := by
  rcases b with _ | w <;> simp_all [JsNum.lt]

theorem filter_sortInsertBy_eq_val {α : Type} (val : α → JsNum) (x : α)
    (l : List α) (v : ℚ) (hx : val x = JsNum.num v) :
    (sortInsertBy val x l).filter (fun a => val a = JsNum.num v) =
      x :: l.filter (fun a => val a = JsNum.num v) := by
  induction l with
  | nil => simp [sortInsertBy, hx]
  | cons y ys ih =>
      by_cases hc : JsNum.lt (val x) (val y) = true
      · obtain ⟨w, hw, hvw⟩ := lt_num_dest v (val y) (hx ▸ hc)
        have hyv : ¬ (val y = JsNum.num v) := by
          rw [hw]
          intro hcon
          exact absurd (JsNum.num.inj hcon) (by linarith)
        simp [sortInsertBy, hc, List.filter_cons, hyv, ih]
      · simp only [Bool.not_eq_true] at hc
        rw [sortInsertBy, if_neg (by simp [hc])]
        simp [List.filter_cons, hx]

theorem filter_sortInsertBy_ne_val {α : Type} (val : α → JsNum) (x : α)
    (l : List α) (v : ℚ) (hx : ¬ (val x = JsNum.num v)) :
    (sortInsertBy val x l).filter (fun a => val a = JsNum.num v) =
      l.filter (fun a => val a = JsNum.num v) := by
  induction l with
  | nil => simp [sortInsertBy, hx]
  | cons y ys ih =>
      by_cases hc : JsNum.lt (val x) (val y) = true
      · simp [sortInsertBy, hc, List.filter_cons, ih]
      · simp only [Bool.not_eq_true] at hc
        simp [sortInsertBy, hc, List.filter_cons, hx]

theorem filter_sortByDesc {α : Type} (val : α → JsNum) (l : List α)
    (v : ℚ) :
    (sortByDesc val l).filter (fun a => val a = JsNum.num v) =
      l.filter (fun a => val a = JsNum.num v) := by
  induction l with
  | nil => simp [sortByDesc]
  | cons x xs ih =>
      by_cases hx : val x = JsNum.num v
      · rw [sortByDesc, filter_sortInsertBy_eq_val val x _ v hx, ih]
        simp [List.filter_cons, hx]
      · rw [sortByDesc, filter_sortInsertBy_ne_val val x _ v hx, ih]
        simp [List.filter_cons, hx]

/-! ## Uniqueness of merge-map keys -/

theorem keysOf_setEntry {V : Type} (m : List (String × V)) (k : String)
    (v : V) :
    keysOf (setEntry m k v) =
      if k ∈ keysOf m then keysOf m else keysOf m ++ [k] := by
  induction m with
  | nil => simp [setEntry, keysOf]
  | cons e rest ih =>
      by_cases he : e.1 = k
      · simp [setEntry, keysOf, he]
      · have hne : ¬ (k = e.1) := fun hcon => he hcon.symm
        have ih2 := ih
        simp only [keysOf] at ih2
        simp only [setEntry, if_neg he, keysOf, List.map_cons, List.mem_cons]
        rw [ih2]
        by_cases hk : k ∈ List.map Prod.fst rest <;> simp [hk, hne]

theorem nodup_keysOf_setEntry {V : Type} (m : List (String × V))
    (k : String) (v : V) (h : (keysOf m).Nodup) :
    (keysOf (setEntry m k v)).Nodup := by
  rw [keysOf_setEntry]
  by_cases hk : k ∈ keysOf m
  · simpa [hk] using h
  · simp [hk, List.nodup_append, h]

theorem nodup_keysOf_processHolding (e : ℚ) (m : HoldingMap)
    (h : AVHolding) (hnd : (keysOf m).Nodup) :
    (keysOf (processHolding e m h)).Nodup := by
  simp only [processHolding]
  exact nodup_keysOf_setEntry m (canonKey h) _ hnd

theorem nodup_keysOf_hstep_foldl (rs : List (ℚ × AVHolding))
    (m : HoldingMap) (hnd : (keysOf m).Nodup) :
    (keysOf (rs.foldl hstep m)).Nodup := by
  induction rs generalizing m with
  | nil => exact hnd
  | cons r rest ih =>
      exact ih (processHolding r.1 m r.2)
        (nodup_keysOf_processHolding r.1 m r.2 hnd)

theorem nodup_keysOf_buildMaps_fst (p : List PortfolioItem) :
    (keysOf (buildMaps p).1).Nodup := by
  rw [buildMaps_fst]
  exact nodup_keysOf_hstep_foldl (holdingRecords p) [] (by simp [keysOf])

/-! ## Presence and multiplicity of merge-map keys -/

theorem getEntry_isSome_processHolding (e : ℚ) (m : HoldingMap)
    (h : AVHolding) (k : String) :
    (getEntry (processHolding e m h) k).isSome =
      ((getEntry m k).isSome || decide (canonKey h = k)) := by
  by_cases hk : canonKey h = k
  · subst hk
    simp [processHolding, getEntry_setEntry_self]
  · simp [processHolding, getEntry_setEntry_ne _ _ _ _ hk, hk]

theorem getEntry_isSome_foldl (rs : List (ℚ × AVHolding))
    (m : HoldingMap) (k : String) :
    (getEntry (rs.foldl hstep m) k).isSome =
      ((getEntry m k).isSome || rs.any (fun r => canonKey r.2 = k)) := by
  induction rs generalizing m with
  | nil => simp
  | cons r rest ih =>
      simp only [List.foldl_cons, List.any_cons, ih, hstep,
        getEntry_isSome_processHolding]
      cases hg : (getEntry m k).isSome <;> simp [Bool.or_comm, Bool.or_left_comm]

theorem getEntry_none_of_not_mem {V : Type} (m : List (String × V))
    (k : String) (h : k ∉ keysOf m) : getEntry m k = none := by
  induction m with
  | nil => simp [getEntry]
  | cons e rest ih =>
      have h1 : ¬ (e.1 = k) := fun hcon =>
        h (by rw [keysOf, List.map_cons, hcon]; exact List.mem_cons_self _ _)
      have h2 : k ∉ keysOf rest := fun hcon =>
        h (by rw [keysOf, List.map_cons]; exact List.mem_cons_of_mem _ hcon)
      simp only [getEntry, if_neg h1]
      exact ih h2

theorem filter_key_eq_nil {V : Type} (m : List (String × V)) (k : String)
    (h : k ∉ keysOf m) : m.filter (fun e => e.1 = k) = [] := by
  induction m with
  | nil => simp
  | cons e rest ih =>
      have h1 : ¬ (e.1 = k) := fun hcon =>
        h (by rw [keysOf, List.map_cons, hcon]; exact List.mem_cons_self _ _)
      have h2 : k ∉ keysOf rest := fun hcon =>
        h (by rw [keysOf, List.map_cons]; exact List.mem_cons_of_mem _ hcon)
      simp only [List.filter_cons, decide_eq_true_eq]
      rw [if_neg h1]
      exact ih h2

theorem length_filter_key {V : Type} (m : List (String × V)) (k : String)
    (hnd : (keysOf m).Nodup) :
    (m.filter (fun e => e.1 = k)).length =
      if (getEntry m k).isSome then 1 else 0 := by
  induction m with
  | nil => simp [getEntry]
  | cons e rest ih =>
      simp only [keysOf, List.map_cons, List.nodup_cons] at hnd
      by_cases he : e.1 = k
      · subst he
        rw [List.filter_cons, if_pos (by simp), filter_key_eq_nil rest e.1 hnd.1]
        simp [getEntry]
      · rw [List.filter_cons, if_neg (by simp [he])]
        rw [ih (by simpa [keysOf] using hnd.2)]
        simp [getEntry, he]

theorem getEntry_of_mem_nodup {V : Type} (m : List (String × V))
    (k : String) (v : V) (hnd : (keysOf m).Nodup) (hm : (k, v) ∈ m) :
    getEntry m k = some v := by
  induction m with
  | nil => cases hm
  | cons e rest ih =>
      simp only [keysOf, List.map_cons, List.nodup_cons] at hnd
      rcases List.mem_cons.1 hm with rfl | hm2
      · simp [getEntry]
      · have hne : e.1 ≠ k := by
          intro hcon
          exact hnd.1 (by
            rw [hcon]
            exact List.mem_map.2 ⟨(k, v), hm2, rfl⟩)
        simp only [getEntry, if_neg hne]
        exact ih (by simpa [keysOf] using hnd.2) hm2

/-! ## Shape of the output lists -/

theorem aggregateHoldings_eq_sort (p : List PortfolioItem) :
    aggregateHoldings p =
      sortByDesc (fun a => a.totalValue) (preSortHoldings p) := by
  simp [aggregateHoldings, aggregatedData, preSortHoldings]

theorem aggregateSectors_eq_sort (p : List PortfolioItem) :
    aggregateSectors p =
      sortByDesc (fun s => s.value)
        ((buildMaps p).2.map (toAggSector (stats p).totalEquity)) := by
  simp [aggregateSectors, aggregatedData]

theorem holdingBucketValue_eq (p : List PortfolioItem) (k : String) :
    holdingBucketValue p k =
      (holdingContribs p k).foldl JsNum.add (JsNum.num 0) := by
  rw [holdingBucketValue, buildMaps_fst, valueAtH_foldl]
  simp [holdingContribs, valueAtH, getEntry]

/-! ## Claim C7 -/

/-- C7: when `totalEquity` is zero, the average expense ratio and the
average dividend yield are exactly `0`, and every output row of both
breakdowns has a `percentageOfPortfolio` of exactly `0`: every division
in `stats` and `aggregatedData` is guarded by `totalEquity > 0` and the
zero branch is taken instead. -/
theorem claim_c7 (p : List PortfolioItem)
    (h : (stats p).totalEquity = 0) :
    (stats p).avgExpense = 0 ∧ (stats p).avgDividendYield = 0
    ∧ (∀ a ∈ aggregateHoldings p, a.percentageOfPortfolio = JsNum.num 0)
    ∧ (∀ s ∈ aggregateSectors p, s.percentage = JsNum.num 0) := by
  have hacc : (p.foldl statsStep ⟨0, 0, 0, 0⟩).totalEquity = 0 := by
    simpa [stats] using h
  refine ⟨by simp [stats, hacc], by simp [stats, hacc], ?_, ?_⟩
  · intro a ha
    rw [aggregateHoldings_eq_sort, mem_sortByDesc] at ha
    obtain ⟨e, he, rfl⟩ := List.mem_map.1 ha
    simp [toAggHolding, h]
  · intro s hs
    rw [aggregateSectors_eq_sort, mem_sortByDesc] at hs
    obtain ⟨e, he, rfl⟩ := List.mem_map.1 hs
    simp [toAggSector, h]

/-- Witness for C7 at a one-position portfolio whose single position has
equity `0` (so holdings are present while `totalEquity` is zero). -/
theorem claim_c7_witness :
    (stats zeroEquityPortfolio).totalEquity = 0
    ∧ ((stats zeroEquityPortfolio).avgExpense = 0
       ∧ (stats zeroEquityPortfolio).avgDividendYield = 0
       ∧ (∀ a ∈ aggregateHoldings zeroEquityPortfolio,
            a.percentageOfPortfolio = JsNum.num 0)
       ∧ (∀ s ∈ aggregateSectors zeroEquityPortfolio,
            s.percentage = JsNum.num 0)) := by
  have h0 : (stats zeroEquityPortfolio).totalEquity = 0 := by
    norm_num [stats, statsStep, zeroEquityPortfolio, spyDemoProfile,
      jsTruthyStr, pf_0, JsNum.orZero]
  exact ⟨h0, claim_c7 zeroEquityPortfolio h0⟩

/-! ## Claim C9 -/

/-- C9: on the spec's concrete scenario — `SPY` with equity 10000 and
holding `{AAPL, weight "0.07"}`, `QQQ` with equity 5000 and holding
`{AAPL, weight "0.10"}` — the aggregated `AAPL` row has `totalValue`
exactly `1200` and `percentageOfPortfolio` exactly `8`. -/
theorem claim_c9 :
    ((aggregateHoldings demoPortfolio).find?
      (fun a => a.ticker = "AAPL")).map
        (fun h => (h.totalValue, h.percentageOfPortfolio)) =
      some (JsNum.num 1200, JsNum.num 8) := by
  norm_num +decide [aggregateHoldings, aggregatedData, buildMaps, aggStep,
    stats, statsStep, processHolding, pf_007, pf_010, pf_0, canonKey,
    canonDesc, isCashSymbol, getEntry, setEntry, sortByDesc, sortInsertBy,
    toAggHolding, JsNum.add, JsNum.mul, JsNum.div, JsNum.lt, jsTruthyStr,
    JsNum.orZero, List.find?, spyDemoProfile, qqqDemoProfile, demoPortfolio]

/-! ## Claim C6 (corrected) -/

/-- Counterexample to C6 as stated: the sorted-descending guarantee is
not unconditional.  In a fund whose first holding (`BAD`) carries the
malformed weight `"garbage"` and whose second (`AAPL`) is worth 500, the
`BAD` bucket merges to `NaN`; the comparator `b.totalValue - a.totalValue`
evaluates to `NaN` against it, which the sort treats as a tie, so the
output keeps the `NaN` row in first position ahead of the strictly
larger numeric row — the output is not sorted by `totalValue`
descending. -/
theorem claim_c6_counterexample :
    (aggregateHoldings nanBucketPortfolio).map
        (fun a => (a.ticker, a.totalValue)) =
      [("BAD", JsNum.nan), ("AAPL", JsNum.num 500)]
    ∧ ¬ ((aggregateHoldings nanBucketPortfolio).Pairwise
        (fun a b => jsGeB a.totalValue b.totalValue = true)) := by
  have hfull : aggregateHoldings nanBucketPortfolio =
      [⟨"BAD", "Bad Inc", "Equity", JsNum.nan, JsNum.nan⟩,
       ⟨"AAPL", "Apple Inc", "Equity", JsNum.num 500, JsNum.num 50⟩] := by
    norm_num +decide [aggregateHoldings, aggregatedData, buildMaps, aggStep,
      stats, statsStep, processHolding, pf_05, pf_garbage, pf_0, canonKey,
      canonDesc, isCashSymbol, getEntry, setEntry, sortByDesc, sortInsertBy,
      toAggHolding, JsNum.add, JsNum.mul, JsNum.div, JsNum.lt, jsTruthyStr,
      JsNum.orZero, nanBucketPortfolio, nanBucketProfile]
  rw [hfull]
  refine ⟨rfl, ?_⟩
  simp [List.pairwise_cons, jsGeB]

/-- C6 (amended): `aggregateHoldings` is deterministic — recomputing it
on the same unchanged position set yields identical output (immediate,
since the embedded function is pure) — and the rows of any fixed numeric
`totalValue` always appear exactly in the order in which their keys were
first inserted into the merge map (the stable pre-sort order
`preSortHoldings`); the output is sorted by `totalValue` descending
whenever every merged bucket value is an actual number, but a bucket
made `NaN` by a malformed weight ties with every neighbour in the
comparator and can stay ahead of strictly larger values, so the
descending order holds only under that numeric-buckets condition. -/
theorem claim_c6_amended (p : List PortfolioItem) :
    aggregateHoldings p = aggregateHoldings p
    ∧ ((∀ e ∈ (buildMaps p).1, ∃ q : ℚ, e.2.value = JsNum.num q) →
        (aggregateHoldings p).Pairwise
          (fun a b => jsGeB a.totalValue b.totalValue = true))
    ∧ ∀ v : ℚ, (aggregateHoldings p).filter
          (fun a => a.totalValue = JsNum.num v) =
        (preSortHoldings p).filter
          (fun a => a.totalValue = JsNum.num v) := by
  refine ⟨rfl, ?_, ?_⟩
  · intro hnum
    rw [aggregateHoldings_eq_sort]
    apply pairwise_sortByDesc
    intro a ha
    obtain ⟨e, he, rfl⟩ := List.mem_map.1 ha
    obtain ⟨q, hq⟩ := hnum e he
    exact ⟨q, by simpa [toAggHolding] using hq⟩
  · intro v
    rw [aggregateHoldings_eq_sort, filter_sortByDesc]

/-- Witness for the amended C6 at the two-position demo portfolio, whose
single merged bucket holds the numeric value `1200`, discharging the
numeric-buckets condition of the sortedness conjunct. -/
theorem claim_c6_amended_witness :
    (∀ e ∈ (buildMaps demoPortfolio).1, ∃ q : ℚ, e.2.value = JsNum.num q)
    ∧ (aggregateHoldings demoPortfolio = aggregateHoldings demoPortfolio
       ∧ (aggregateHoldings demoPortfolio).Pairwise
           (fun a b => jsGeB a.totalValue b.totalValue = true)
       ∧ ∀ v : ℚ, (aggregateHoldings demoPortfolio).filter
             (fun a => a.totalValue = JsNum.num v) =
           (preSortHoldings demoPortfolio).filter
             (fun a => a.totalValue = JsNum.num v)) := by
  have hb : (buildMaps demoPortfolio).1 =
      [("AAPL", ⟨JsNum.num 1200, "Apple Inc", "Equity"⟩)] := by
    norm_num +decide [buildMaps, aggStep, processHolding, pf_007, pf_010,
      canonKey, canonDesc, isCashSymbol, getEntry, setEntry, JsNum.add,
      JsNum.mul, jsTruthyStr, demoPortfolio, spyDemoProfile, qqqDemoProfile]
  have hnum : ∀ e ∈ (buildMaps demoPortfolio).1,
      ∃ q : ℚ, e.2.value = JsNum.num q := by
    rw [hb]
    intro e he
    rw [List.mem_singleton] at he
    subst he
    exact ⟨1200, rfl⟩
  exact ⟨hnum, (claim_c6_amended demoPortfolio).1,
    (claim_c6_amended demoPortfolio).2.1 hnum,
    (claim_c6_amended demoPortfolio).2.2⟩

/-! ## Claim C5 (corrected) -/

/-- Counterexample to C5 as stated: in a fund holding a placeholder row
(`symbol "N/A"`, weight `"0.1"`) and a row natively labelled `"CASH"`
(weight `"0.2"`), with equity 1000, the single `"CASH"` output bucket
totals `300`, not the `100` contributed by the placeholder rows alone:
the sentinel key `"CASH"` cannot distinguish placeholder rows from rows
the provider itself labels `CASH`. -/
theorem claim_c5_counterexample :
    ((aggregateHoldings nativeCashPortfolio).find?
        (fun a => a.ticker = "CASH")).map (fun a => a.totalValue) =
      some (JsNum.num 300)
    ∧ (((holdingRecords nativeCashPortfolio).filter
          (fun r => isCashSymbol r.2.symbol)).map contribH).foldl
        JsNum.add (JsNum.num 0) = JsNum.num 100
    ∧ ¬ (((aggregateHoldings nativeCashPortfolio).find?
        (fun a => a.ticker = "CASH")).map (fun a => a.totalValue) =
      some (JsNum.num 100)) := by
  refine ⟨?_, ?_, ?_⟩ <;>
    norm_num +decide [aggregateHoldings, aggregatedData, buildMaps, aggStep,
      stats, statsStep, processHolding, holdingRecords, contribH, pf_01,
      pf_02, pf_0, canonKey, canonDesc, isCashSymbol, getEntry, setEntry,
      sortByDesc, sortInsertBy, toAggHolding, JsNum.add, JsNum.mul,
      JsNum.div, JsNum.lt, jsTruthyStr, JsNum.orZero, List.find?,
      nativeCashPortfolio, nativeCashProfile]

/-- C5 (amended): every holding whose symbol is null, empty, `"N/A"` or
`"-"` is remapped to the canonical key `"CASH"` with description
`"Cash / Other Assets"`, and — as long as at least one such row exists —
all of them merge into exactly one `"CASH"` output row; its `totalValue`
is the sum of the equity-times-weight contributions of all rows whose
canonical key is `"CASH"`, which are the placeholder rows together with
any rows the provider itself already labels `"CASH"`. -/
theorem claim_c5_amended (p : List PortfolioItem)
    (hex : ∃ r ∈ holdingRecords p, isCashSymbol r.2.symbol = true) :
    (∀ r ∈ holdingRecords p, isCashSymbol r.2.symbol = true →
        canonKey r.2 = "CASH" ∧ canonDesc r.2 = "Cash / Other Assets")
    ∧ ((aggregateHoldings p).filter
        (fun a => a.ticker = "CASH")).length = 1
    ∧ (∀ a ∈ aggregateHoldings p, a.ticker = "CASH" →
        a.totalValue =
          (holdingContribs p "CASH").foldl JsNum.add (JsNum.num 0)) := by
  obtain ⟨r0, hr0, hc0⟩ := hex
  have hnd := nodup_keysOf_buildMaps_fst p
  have hsome : (getEntry (buildMaps p).1 "CASH").isSome = true := by
    rw [buildMaps_fst, getEntry_isSome_foldl]
    simp only [getEntry, Option.isSome_none, Bool.false_or, List.any_eq_true,
      decide_eq_true_eq]
    exact ⟨r0, hr0, by simp [canonKey, hc0]⟩
  refine ⟨?_, ?_, ?_⟩
  · intro r hr hc
    exact ⟨by simp [canonKey, hc], by simp [canonDesc, hc]⟩
  · rw [aggregateHoldings_eq_sort]
    rw [((sortByDesc_perm (fun a => a.totalValue)
      (preSortHoldings p)).filter _).length_eq]
    rw [preSortHoldings, List.filter_map]
    rw [List.length_map]
    have hcongr : (buildMaps p).1.filter
        ((fun a => decide (a.ticker = "CASH")) ∘
          toAggHolding (stats p).totalEquity) =
        (buildMaps p).1.filter (fun e => e.1 = "CASH") :=
      List.filter_congr (fun e _ => by simp [toAggHolding])
    rw [hcongr, length_filter_key _ _ hnd, if_pos hsome]
  · intro a ha hticker
    rw [aggregateHoldings_eq_sort, mem_sortByDesc] at ha
    obtain ⟨e, he, rfl⟩ := List.mem_map.1 ha
    have he1 : e.1 = "CASH" := by simpa [toAggHolding] using hticker
    have hget : getEntry (buildMaps p).1 "CASH" = some e.2 :=
      getEntry_of_mem_nodup _ _ _ hnd (by rw [← he1]; exact he)
    have hval : valueAtH (buildMaps p).1 "CASH" = e.2.value := by
      simp [valueAtH, hget]
    have hbucket := holdingBucketValue_eq p "CASH"
    rw [holdingBucketValue, hval] at hbucket
    simpa [toAggHolding] using hbucket

/-- Witness for C5 at the spec's own merge scenario: an `"N/A"` row in
one fund and a `null`-symbol row in another. -/
theorem claim_c5_witness :
    (∃ r ∈ holdingRecords cashMergePortfolio,
        isCashSymbol r.2.symbol = true)
    ∧ ((∀ r ∈ holdingRecords cashMergePortfolio,
          isCashSymbol r.2.symbol = true →
          canonKey r.2 = "CASH" ∧ canonDesc r.2 = "Cash / Other Assets")
       ∧ ((aggregateHoldings cashMergePortfolio).filter
            (fun a => a.ticker = "CASH")).length = 1
       ∧ (∀ a ∈ aggregateHoldings cashMergePortfolio,
            a.ticker = "CASH" →
            a.totalValue = (holdingContribs cashMergePortfolio
              "CASH").foldl JsNum.add (JsNum.num 0))) := by
  have hex : ∃ r ∈ holdingRecords cashMergePortfolio,
      isCashSymbol r.2.symbol = true := by
    refine ⟨(1000, ⟨some "N/A", "", "0.1", ""⟩), ?_, by decide⟩
    simp [holdingRecords, cashMergePortfolio, naCashProfile,
      nullCashProfile, jsTruthyStr]
  exact ⟨hex, claim_c5_amended cashMergePortfolio hex⟩
